import Mathlib

/-!
Shallow embedding of `cloudflare-warp-speedtest-rs` (src/main.rs, src/args.rs).

The program draws candidate endpoints from eight fixed /24 CIDR blocks,
probes each endpoint over UDP a fixed number of times, averages the
latencies of the successful attempts, and ranks surviving endpoints by
average latency.

Modelling conventions:
* IPv4 addresses are `Nat` values of the 32-bit address.
* `u128` arithmetic is `Nat` with an explicit `% 2 ^ 128` where the Rust
  release-mode wrap-around matters (the latency sum).
* Randomness is an explicit parameter: the random draws consumed by
  `choose_multiple` (reservoir sampling, as implemented by the `rand`
  crate's `IteratorRandom::choose_multiple`) and by `ports.choose` are
  functions from the draw's position to a `Nat`.
* The I/O effects of one probe (`speedtest`) are summarised by a
  `ProbeEnv` record holding the outcomes the environment hands back:
  bind result, send result, and the `timeout(recv_from)` outcome.
* The `todo!()` panic of the IPv6 arm is modelled as `Except.error`.
-/

namespace WarpSpeedtest

/-- 32-bit value of the dotted-quad IPv4 address `a.b.c.d`. -/
def ipv4 (a b c d : Nat) : Nat :=
  ((a * 256 + b) * 256 + c) * 256 + d

/-- Models `std::net::SocketAddr`: an IP address together with a UDP port. -/
inductive SocketAddr where
  | v4 (ip : Nat) (port : Nat)
  | v6 (ip : Nat) (port : Nat)
deriving DecidableEq

/-- The IP component of a socket address. -/
def SocketAddr.ipOf : SocketAddr → Nat
  | .v4 ip _ => ip
  | .v6 ip _ => ip

/-- Models `struct TestResult { addr: SocketAddr, latency: u128 }`. -/
structure TestResult where
  addr : SocketAddr
  latency : Nat
deriving DecidableEq

/-- The base addresses of the `v4_ranges` /24 blocks in `generate_ipv4`. -/
def v4_ranges : List Nat :=
  [ipv4 162 159 192 0, ipv4 162 159 193 0, ipv4 162 159 195 0,
   ipv4 162 159 204 0, ipv4 188 114 96 0, ipv4 188 114 97 0,
   ipv4 188 114 98 0, ipv4 188 114 99 0]

/-- The fixed `ports` list in `generate_ipv4`. -/
def ports : List Nat :=
  [500, 854, 859, 864, 878, 880, 890, 891, 894, 903, 908, 928, 934, 939,
   942, 943, 945, 946, 955, 968, 987, 988, 1002, 1010, 1014, 1018, 1070,
   1074, 1180, 1387, 1701, 2408, 4500, 5050, 5242, 6515, 7103, 7152, 7156,
   7281, 7559, 8319, 8742, 8854, 8886]

/-- `all_ips` in `generate_ipv4`: each /24 block expanded to its 256
addresses (as `ipnetwork::Ipv4Network::iter` does), concatenated. -/
def all_ips : List Nat :=
  v4_ranges.flatMap fun base => (List.range 256).map (base + ·)

/-- One step of reservoir sampling over the element `x` at global index
`i`: the first `amount` elements fill the reservoir in order; every later
element replaces slot `pick i % (i + 1)` when that draw lands below
`amount`.  This is the `rand` crate's `IteratorRandom::choose_multiple`
with the uniform draw in `0..=i` supplied by `pick`. -/
def reservoirAux (amount : Nat) (pick : Nat → Nat) :
    List α → Nat → List α → List α
  | [], _, acc => acc
  | x :: xs, i, acc =>
    reservoirAux amount pick xs (i + 1)
      (if i < amount then acc ++ [x]
       else if pick i % (i + 1) < amount then acc.set (pick i % (i + 1)) x
       else acc)

/-- `all_ips.iter().choose_multiple(&mut rng, amount)`: reservoir sampling
of `amount` elements, yielding `min amount xs.length` elements. -/
def choose_multiple (pick : Nat → Nat) (xs : List α) (amount : Nat) :
    List α :=
  reservoirAux amount pick xs 0 []

/-- `fn generate_ipv4(amount: usize) -> Vec<SocketAddr>`: sample IPs
without replacement from `all_ips`, then pair each with a port drawn from
`ports` (`ports.choose(&mut rng)`, one independent draw per address,
supplied by `portPick`). -/
def generate_ipv4 (pick portPick : Nat → Nat) (amount : Nat) :
    List SocketAddr :=
  let sampled := choose_multiple pick all_ips amount
  sampled.enum.map fun p =>
    SocketAddr.v4 p.2 (ports.getD (portPick p.1 % ports.length) 0)

/-- Stand-in for `std::io::Error` values (their identity is irrelevant to
the control flow, only which arm produced them). -/
inductive IoError where
  | mk (code : Nat)
deriving DecidableEq

/-- The `anyhow::Error` values `speedtest` can return: a transport error
forwarded from bind/send/recv via `?` / `e.into()`, or the
`anyhow!("Timeout waiting for response from {}", addr)` error built when
the one-second `tokio::time::timeout` elapses. -/
inductive ProbeError where
  | transport (e : IoError)
  | timeoutExpired (addr : SocketAddr)
deriving DecidableEq

/-- Outcome of `timeout(Duration::from_secs(1), socket.recv_from(&mut buf))`:
`Ok(Ok((len, src)))`, `Ok(Err(e))`, or `Err(Elapsed)`. -/
inductive RecvOutcome where
  | received (len : Nat) (src : SocketAddr) (elapsedMs : Nat)
  | recvErr (e : IoError)
  | timedOut
deriving DecidableEq

/-- The outcomes the environment hands back for the I/O a single
`speedtest` call performs: the `UdpSocket::bind` result, the `send_to`
result (bytes written), and the receive outcome, with the elapsed
milliseconds `start.elapsed().as_millis()` measured at receipt. -/
structure ProbeEnv where
  bindResult : Except IoError Unit
  sendResult : Except IoError Nat
  recvResult : RecvOutcome

/-- `async fn speedtest(addr: &SocketAddr) -> Result<TestResult>`: bind an
ephemeral socket, send the fixed WARP handshake payload, wait up to one
second for any datagram.  `?` forwards bind/send transport errors; a
receive error is forwarded (`Err(e.into())`); an elapsed timeout becomes
the "Timeout waiting for response" error; a received datagram yields
`Ok(TestResult)` carrying the elapsed milliseconds. -/
def speedtest (addr : SocketAddr) (env : ProbeEnv) :
    Except ProbeError TestResult :=
  match env.bindResult with
  | .error e => .error (.transport e)
  | .ok _ =>
    match env.sendResult with
    | .error e => .error (.transport e)
    | .ok _ =>
      match env.recvResult with
      | .received _ _ elapsed => .ok ⟨addr, elapsed⟩
      | .recvErr e => .error (.transport e)
      | .timedOut => .error (.timeoutExpired addr)

/-- The probe call returned `Ok(TestResult)`. -/
def isSuccess : Except ProbeError TestResult → Bool
  | .ok _ => true
  | .error _ => false

/-- The probe call returned the timeout error. -/
def isTimeoutOutcome : Except ProbeError TestResult → Bool
  | .error (.timeoutExpired _) => true
  | _ => false

/-- The probe call returned a forwarded transport error. -/
def isTransportOutcome : Except ProbeError TestResult → Bool
  | .error (.transport _) => true
  | _ => false

/-- State accumulated by the per-endpoint `for _ in 0..cli.attempts`
loop: how many `pb.inc(1)` progress ticks were issued, how many
`speedtest` calls were made, and the latencies pushed for successful
attempts. -/
structure AttemptState where
  ticks : Nat
  probes : Nat
  latencies : List Nat
deriving DecidableEq

/-- One iteration of the attempt loop: tick the progress bar, call
`speedtest` (attempt `i`'s outcome is `probe i`), and push the latency
when the attempt succeeded (`if let Ok(result) = speedtest(..).await`). -/
def attemptStep (probe : Nat → Except ProbeError TestResult)
    (s : AttemptState) (i : Nat) : AttemptState :=
  match probe i with
  | .ok r => ⟨s.ticks + 1, s.probes + 1, s.latencies ++ [r.latency]⟩
  | .error _ => ⟨s.ticks + 1, s.probes + 1, s.latencies⟩

/-- The whole per-endpoint attempt loop. -/
def runAttempts (attempts : Nat)
    (probe : Nat → Except ProbeError TestResult) : AttemptState :=
  (List.range attempts).foldl (attemptStep probe) ⟨0, 0, []⟩

/-- The latencies of exactly the successful attempts, in order. -/
def successLatencies (attempts : Nat)
    (probe : Nat → Except ProbeError TestResult) : List Nat :=
  (List.range attempts).filterMap fun i =>
    match probe i with
    | .ok r => some r.latency
    | .error _ => none

/-- One endpoint's contribution to the stream: `None` when `latencies`
ended empty, otherwise a `TestResult` whose latency is
`latencies.iter().sum::<u128>() / latencies.len() as u128` — the
truncated mean, with the `u128` sum wrapping modulo `2 ^ 128` as in a
release build. -/
def perEndpoint (addr : SocketAddr) (attempts : Nat)
    (probe : Nat → Except ProbeError TestResult) : Option TestResult :=
  let st := runAttempts attempts probe
  if st.latencies.isEmpty then none
  else some ⟨addr, st.latencies.sum % 2 ^ 128 / st.latencies.length⟩

/-- `alive_addrs.sort_by_key(|res| res.latency)` — the Ranker. -/
def sortByLatency (l : List TestResult) : List TestResult :=
  l.mergeSort fun a b => a.latency ≤ b.latency

/-- The Scheduler: run the attempt loop for every candidate (each paired
with the probe outcomes the network will hand it), keep the endpoints
that produced a `TestResult` (`filter_map`), and sort by latency.
`buffer_unordered` makes the completion order unspecified; the final
sort makes the collected result independent of it. -/
def schedulerRun
    (inputs : List (SocketAddr × (Nat → Except ProbeError TestResult)))
    (attempts : Nat) : List TestResult :=
  sortByLatency (inputs.filterMap fun p => perEndpoint p.1 attempts p.2)

/-- Total number of `pb.inc(1)` progress ticks issued across a run. -/
def schedulerTicks
    (inputs : List (SocketAddr × (Nat → Except ProbeError TestResult)))
    (attempts : Nat) : Nat :=
  (inputs.map fun p => (runAttempts attempts p.2).ticks).sum

/-- `args.rs`: `enum SpeedTestMode { Ipv4, Ipv6 }`. -/
inductive SpeedTestMode where
  | ipv4
  | ipv6
deriving DecidableEq

/-- The `match cli.mode` in `main`: the IPv4 arm generates candidates,
the IPv6 arm is `todo!()`, whose "not yet implemented" panic is modelled
as `Except.error`. -/
def modeAddrs (mode : SpeedTestMode) (pick portPick : Nat → Nat)
    (amount : Nat) : Except String (List SocketAddr) :=
  match mode with
  | .ipv4 => .ok (generate_ipv4 pick portPick amount)
  | .ipv6 => .error ("not yet implemented")

/-- `main` after CLI parsing: pick the address family, then run the
probing pipeline; a configuration-time failure aborts before any
candidate generation or probing. -/
def mainRun (mode : SpeedTestMode) (pick portPick : Nat → Nat)
    (amount attempts : Nat)
    (probeOf : SocketAddr → Nat → Except ProbeError TestResult) :
    Except String (List TestResult) :=
  match modeAddrs mode pick portPick amount with
  | .error e => .error e
  | .ok addrs => .ok (schedulerRun (addrs.map fun a => (a, probeOf a)) attempts)

/-- Concrete endpoint used by the C2 counterexample. -/
def addrC2 : SocketAddr := .v4 (ipv4 162 159 193 5) 854

/-- A probe environment whose receive wait times out (bind and send
succeeded; the handshake payload is 148 bytes). -/
def envTimedOut : ProbeEnv := ⟨.ok (), .ok 148, .timedOut⟩

/-- Concrete endpoint used by the C3 witness. -/
def addrC3 : SocketAddr := .v4 (ipv4 162 159 192 1) 2408

/-- Probe outcomes for the C3 witness: the first attempt succeeds in
10 ms, later attempts time out. -/
def probeC3 : Nat → Except ProbeError TestResult :=
  fun i => if i = 0 then .ok ⟨addrC3, 10⟩ else .error (.timeoutExpired addrC3)

/-- Concrete endpoint used by the C4 witness. -/
def addrC4 : SocketAddr := .v4 (ipv4 188 114 96 7) 500

/-- Probe outcomes for the C4 witness: every attempt times out. -/
def probeAllFail : Nat → Except ProbeError TestResult :=
  fun _ => .error (.timeoutExpired addrC4)

theorem blocks_length (bases : List Nat) :
    (bases.flatMap fun base => (List.range 256).map (base + ·)).length =
      bases.length * 256 := by
  induction bases with
  | nil => simp
  | cons b bs ih =>
    simp only [List.flatMap_cons, List.length_append, List.length_map,
      List.length_range, List.length_cons, ih]
    ring

theorem all_ips_length : all_ips.length = 2048 :=
  blocks_length v4_ranges

theorem blocks_nodup (bases : List Nat)
    (h : bases.Pairwise fun a b => a + 256 ≤ b) :
    (bases.flatMap fun base => (List.range 256).map (base + ·)).Nodup := by
  induction bases with
  | nil => simp
  | cons b bs ih =>
    obtain ⟨hb, hbs⟩ := List.pairwise_cons.mp h
    simp only [List.flatMap_cons]
    refine List.Nodup.append ?_ (ih hbs) ?_
    · exact (List.nodup_range 256).map fun x y hxy => by omega
    · intro x hx hx'
      obtain ⟨r, hr, rfl⟩ := List.mem_map.mp hx
      obtain ⟨b', hb', hxb'⟩ := List.mem_flatMap.mp hx'
      obtain ⟨r', hr', he⟩ := List.mem_map.mp hxb'
      have := hb b' hb'
      have := List.mem_range.mp hr
      omega

theorem all_ips_nodup : all_ips.Nodup :=
  blocks_nodup v4_ranges (by decide)

theorem reservoirAux_length (amount : Nat) (pick : Nat → Nat) :
    ∀ (xs : List α) (i : Nat) (acc : List α),
      acc.length = min amount i →
      (reservoirAux amount pick xs i acc).length =
        min amount (i + xs.length) := by
  intro xs
  induction xs with
  | nil => intro i acc h; simpa [reservoirAux] using h
  | cons x xs ih =>
    intro i acc h
    simp only [reservoirAux]
    by_cases hi : i < amount
    · rw [if_pos hi, ih (i + 1) (acc ++ [x]) (by simp [h]; omega)]
      simp only [List.length_cons]
      omega
    · rw [if_neg hi]
      by_cases hj : pick i % (i + 1) < amount
      · rw [if_pos hj,
          ih (i + 1) (acc.set (pick i % (i + 1)) x) (by simp [h]; omega)]
        simp only [List.length_cons]
        omega
      · rw [if_neg hj, ih (i + 1) acc (by simp [h]; omega)]
        simp only [List.length_cons]
        omega

theorem choose_multiple_length (pick : Nat → Nat) (xs : List α)
    (amount : Nat) :
    (choose_multiple pick xs amount).length = min amount xs.length := by
  have := reservoirAux_length amount pick xs 0 [] (by simp)
  simpa [choose_multiple] using this

theorem nodup_set :
    ∀ (l : List α) (j : Nat) (a : α), l.Nodup → a ∉ l → (l.set j a).Nodup
  | [], _, _, _, _ => by simp
  | b :: l, 0, a, h, ha => by
    have hbl := List.nodup_cons.mp h
    exact List.nodup_cons.mpr
      ⟨fun hal => ha (List.mem_cons_of_mem b hal), hbl.2⟩
  | b :: l, j + 1, a, h, ha => by
    have hbl := List.nodup_cons.mp h
    have ha' : a ∉ l := fun hal => ha (List.mem_cons_of_mem b hal)
    simp only [List.set_cons_succ]
    refine List.nodup_cons.mpr ⟨?_, nodup_set l j a hbl.2 ha'⟩
    intro hb
    rcases List.mem_or_eq_of_mem_set hb with hbl' | hba
    · exact hbl.1 hbl'
    · exact ha (hba ▸ List.mem_cons_self b l)

theorem reservoirAux_nodup (amount : Nat) (pick : Nat → Nat) :
    ∀ (xs : List α) (i : Nat) (acc : List α),
      (acc ++ xs).Nodup → (reservoirAux amount pick xs i acc).Nodup
  | [], _, acc, h => by simpa [reservoirAux] using h
  | x :: xs, i, acc, h => by
    obtain ⟨hacc, hxxs, hdis⟩ := List.nodup_append.mp h
    simp only [reservoirAux]
    by_cases hi : i < amount
    · rw [if_pos hi]
      apply reservoirAux_nodup amount pick xs (i + 1)
      have : acc ++ [x] ++ xs = acc ++ x :: xs := by simp
      rw [this]; exact h
    · rw [if_neg hi]
      by_cases hj : pick i % (i + 1) < amount
      · rw [if_pos hj]
        apply reservoirAux_nodup amount pick xs (i + 1)
        refine List.nodup_append.mpr ⟨?_, (List.nodup_cons.mp hxxs).2, ?_⟩
        · refine nodup_set acc _ x hacc fun hxacc =>
            hdis hxacc (List.mem_cons_self x xs)
        · intro a ha haxs
          rcases List.mem_or_eq_of_mem_set ha with ha' | hax
          · exact hdis ha' (List.mem_cons_of_mem x haxs)
          · exact (List.nodup_cons.mp hxxs).1 (hax ▸ haxs)
      · rw [if_neg hj]
        apply reservoirAux_nodup amount pick xs (i + 1)
        refine List.nodup_append.mpr
          ⟨hacc, (List.nodup_cons.mp hxxs).2, ?_⟩
        intro a ha haxs
        exact hdis ha (List.mem_cons_of_mem x haxs)

theorem choose_multiple_nodup (pick : Nat → Nat) (xs : List α)
    (amount : Nat) (h : xs.Nodup) :
    (choose_multiple pick xs amount).Nodup :=
  reservoirAux_nodup amount pick xs 0 [] (by simpa using h)

theorem reservoirAux_all (amount : Nat) (pick : Nat → Nat) :
    ∀ (xs : List α) (i : Nat) (acc : List α),
      i + xs.length ≤ amount →
      reservoirAux amount pick xs i acc = acc ++ xs
  | [], _, acc, _ => by simp [reservoirAux]
  | x :: xs, i, acc, h => by
    simp only [List.length_cons] at h
    simp only [reservoirAux]
    rw [if_pos (by omega),
      reservoirAux_all amount pick xs (i + 1) (acc ++ [x]) (by omega)]
    simp

theorem choose_multiple_all (pick : Nat → Nat) (xs : List α)
    (amount : Nat) (h : xs.length ≤ amount) :
    choose_multiple pick xs amount = xs := by
  have := reservoirAux_all amount pick xs 0 [] (by omega)
  simpa [choose_multiple] using this

theorem generate_ipv4_map_ipOf (pick portPick : Nat → Nat) (amount : Nat) :
    (generate_ipv4 pick portPick amount).map SocketAddr.ipOf =
      choose_multiple pick all_ips amount := by
  simp only [generate_ipv4, List.map_map]
  have h : (SocketAddr.ipOf ∘ fun p : Nat × Nat =>
      SocketAddr.v4 p.2 (ports.getD (portPick p.1 % ports.length) 0)) =
      Prod.snd := rfl
  rw [h, List.enum_map_snd]

theorem generate_ipv4_length (pick portPick : Nat → Nat) (amount : Nat) :
    (generate_ipv4 pick portPick amount).length = min amount 2048 := by
  simp only [generate_ipv4, List.length_map, List.enum_length]
  rw [choose_multiple_length, all_ips_length]

theorem generate_ipv4_ipOf_nodup (pick portPick : Nat → Nat)
    (amount : Nat) :
    ((generate_ipv4 pick portPick amount).map SocketAddr.ipOf).Nodup := by
  rw [generate_ipv4_map_ipOf]
  exact choose_multiple_nodup pick all_ips amount all_ips_nodup

theorem generate_ipv4_exhausts (pick portPick : Nat → Nat) (amount : Nat)
    (h : 2048 ≤ amount) :
    (generate_ipv4 pick portPick amount).map SocketAddr.ipOf = all_ips := by
  rw [generate_ipv4_map_ipOf]
  exact choose_multiple_all pick all_ips amount (by rw [all_ips_length]; exact h)

theorem runAttempts_succ (n : Nat)
    (probe : Nat → Except ProbeError TestResult) :
    runAttempts (n + 1) probe = attemptStep probe (runAttempts n probe) n := by
  simp [runAttempts, List.range_succ]

theorem runAttempts_ticks (attempts : Nat)
    (probe : Nat → Except ProbeError TestResult) :
    (runAttempts attempts probe).ticks = attempts := by
  induction attempts with
  | zero => rfl
  | succ n ih =>
    rw [runAttempts_succ]
    cases hp : probe n <;> simp [attemptStep, hp, ih]

theorem runAttempts_latencies (attempts : Nat)
    (probe : Nat → Except ProbeError TestResult) :
    (runAttempts attempts probe).latencies =
      successLatencies attempts probe := by
  induction attempts with
  | zero => rfl
  | succ n ih =>
    rw [runAttempts_succ]
    cases hp : probe n <;>
      simp [attemptStep, hp, ih, successLatencies, List.range_succ,
        List.filterMap_append]

theorem perEndpoint_none (addr : SocketAddr) (attempts : Nat)
    (probe : Nat → Except ProbeError TestResult)
    (h : successLatencies attempts probe = []) :
    perEndpoint addr attempts probe = none := by
  simp only [perEndpoint, runAttempts_latencies]
  rw [if_pos (by simp [h])]

theorem perEndpoint_addr (addr : SocketAddr) (attempts : Nat)
    (probe : Nat → Except ProbeError TestResult) (r : TestResult)
    (h : perEndpoint addr attempts probe = some r) : r.addr = addr := by
  simp only [perEndpoint] at h
  split at h
  · exact absurd h (by simp)
  · have := Option.some.inj h
    subst this
    rfl

theorem schedulerRun_mem
    (inputs : List (SocketAddr × (Nat → Except ProbeError TestResult)))
    (attempts : Nat) (r : TestResult) :
    r ∈ schedulerRun inputs attempts ↔
      ∃ p ∈ inputs, perEndpoint p.1 attempts p.2 = some r := by
  unfold schedulerRun sortByLatency
  rw [List.mem_mergeSort, List.mem_filterMap]

theorem sortByLatency_chain (l : List TestResult) :
    (sortByLatency l).Chain' fun a b => a.latency ≤ b.latency := by
  have hp : (sortByLatency l).Pairwise
      (fun a b : TestResult => decide (a.latency ≤ b.latency) = true) := by
    unfold sortByLatency
    apply List.sorted_mergeSort
    · intro a b c h₁ h₂
      simp only [decide_eq_true_eq] at h₁ h₂ ⊢
      omega
    · intro a b
      simp only [Bool.or_eq_true, decide_eq_true_eq]
      omega
  exact (hp.imp fun h => by simpa using h).chain'

/-- C1 counterexample: at `count = 2049`, one more than the 2048-address
universe, `generate_ipv4` does not fail — it returns a result list (of
all 2048 addresses).  `generate_ipv4` is total: the Rust function
returns `Vec<SocketAddr>` and has no error path. -/
theorem generate_ipv4_no_error_over_universe :
    (generate_ipv4 id id 2049).length = 2048 := by
  rw [generate_ipv4_length]
  decide

/-- C1 (amended): for every count strictly greater than the universe
size, `generate_ipv4` returns a result list containing every IP of the
universe (length 2048); no configuration error is raised. -/
theorem generate_ipv4_over_universe_caps (pick portPick : Nat → Nat)
    (amount : Nat) (h : 2048 < amount) :
    (generate_ipv4 pick portPick amount).length = 2048 ∧
      (generate_ipv4 pick portPick amount).map SocketAddr.ipOf = all_ips :=
  ⟨by rw [generate_ipv4_length]; omega,
   generate_ipv4_exhausts pick portPick amount (by omega)⟩

/-- C1 witness: the amended claim at the concrete count 2049. -/
theorem generate_ipv4_over_universe_caps_witness :
    (generate_ipv4 id id 2049).length = 2048 ∧
      (generate_ipv4 id id 2049).map SocketAddr.ipOf = all_ips :=
  generate_ipv4_over_universe_caps id id 2049 (by decide)

/-- C2 counterexample: when the receive wait elapses, `speedtest`
returns `Err(anyhow!("Timeout waiting for response from ..."))` — the
timeout outcome IS an error return of the probe call, not a non-error
result (the caller `if let Ok(result) = speedtest(..)` treats it exactly
like a transport error). -/
theorem speedtest_timedOut_is_error :
    speedtest addrC2 envTimedOut =
        .error (.timeoutExpired addrC2) ∧
      isSuccess (speedtest addrC2 envTimedOut) = false ∧
      isTimeoutOutcome (speedtest addrC2 envTimedOut) = true :=
  ⟨rfl, rfl, rfl⟩

/-- C2 (amended): every probe call returns exactly one of three distinct
outcomes — `Ok(latency)`, the timeout error, or a transport error — and
the timeout error is a value distinguishable from a transport error; but
it is surfaced through the error channel like a transport error, not as
a non-error result. -/
theorem speedtest_three_outcomes (addr : SocketAddr) (env : ProbeEnv) :
    (isSuccess (speedtest addr env)).toNat
      + (isTimeoutOutcome (speedtest addr env)).toNat
      + (isTransportOutcome (speedtest addr env)).toNat = 1 := by
  obtain ⟨b, s, r⟩ := env
  cases b <;> cases s <;> cases r <;> rfl

/-- C3: whenever at least one attempt succeeded (and the `u128` latency
sum does not wrap), the endpoint's reported latency is the
integer-truncated arithmetic mean of exactly the successful attempts'
latencies; failed and timed-out attempts contribute nothing. -/
theorem perEndpoint_avg (addr : SocketAddr) (attempts : Nat)
    (probe : Nat → Except ProbeError TestResult)
    (h : successLatencies attempts probe ≠ [])
    (hs : (successLatencies attempts probe).sum < 2 ^ 128) :
    perEndpoint addr attempts probe =
      some ⟨addr, (successLatencies attempts probe).sum /
        (successLatencies attempts probe).length⟩ := by
  simp only [perEndpoint, runAttempts_latencies]
  rw [if_neg (by simpa [List.isEmpty_iff] using h), Nat.mod_eq_of_lt hs]

/-- C3 witness: two attempts, the first succeeding in 10 ms and the
second timing out, average to 10 ms. -/
theorem perEndpoint_avg_witness :
    successLatencies 2 probeC3 ≠ [] ∧
      (successLatencies 2 probeC3).sum < 2 ^ 128 ∧
      perEndpoint addrC3 2 probeC3 =
        some ⟨addrC3, (successLatencies 2 probeC3).sum /
          (successLatencies 2 probeC3).length⟩ :=
  ⟨by decide, by decide, perEndpoint_avg addrC3 2 probeC3 (by decide) (by decide)⟩

/-- C4: an endpoint all of whose attempts fail yields no result: its
address is absent from the Scheduler's output, which is an ordinary list
(`schedulerRun` is total — per-attempt failures never escape it). -/
theorem schedulerRun_drops_dead
    (inputs : List (SocketAddr × (Nat → Except ProbeError TestResult)))
    (attempts : Nat) (a : SocketAddr)
    (h : ∀ p ∈ inputs, p.1 = a →
      ∀ i, i < attempts → isSuccess (p.2 i) = false) :
    a ∉ (schedulerRun inputs attempts).map TestResult.addr := by
  intro hmem
  obtain ⟨r, hr, hra⟩ := List.mem_map.mp hmem
  obtain ⟨p, hp, hpe⟩ := (schedulerRun_mem inputs attempts r).mp hr
  have hpa : p.1 = a := by
    rw [← hra]
    exact (perEndpoint_addr p.1 attempts p.2 r hpe).symm
  have hfail := h p hp hpa
  have hnil : successLatencies attempts p.2 = [] := by
    unfold successLatencies
    rw [List.filterMap_eq_nil_iff]
    intro i hi
    have hfi := hfail i (List.mem_range.mp hi)
    cases hpi : p.2 i with
    | ok v => rw [hpi] at hfi; exact absurd hfi (by simp [isSuccess])
    | error e => rfl
  rw [perEndpoint_none p.1 attempts p.2 hnil] at hpe
  exact Option.noConfusion hpe

/-- C4 witness: a single endpoint whose two attempts both time out is
absent from the run's output. -/
theorem schedulerRun_drops_dead_witness :
    addrC4 ∉ (schedulerRun [(addrC4, probeAllFail)] 2).map
      TestResult.addr :=
  schedulerRun_drops_dead [(addrC4, probeAllFail)] 2 addrC4 (by
    intro p hp hpa i hi
    simp only [List.mem_singleton] at hp
    subst hp
    rfl)

/-- C5: for every count within the universe, `generate_ipv4` returns
exactly that many endpoints, and their IP addresses are pairwise
distinct (sampled without replacement from the CIDR expansion). -/
theorem generate_ipv4_count_and_distinct (pick portPick : Nat → Nat)
    (amount : Nat) (h : amount ≤ 2048) :
    (generate_ipv4 pick portPick amount).length = amount ∧
      ((generate_ipv4 pick portPick amount).map SocketAddr.ipOf).Nodup :=
  ⟨by rw [generate_ipv4_length]; omega,
   generate_ipv4_ipOf_nodup pick portPick amount⟩

/-- C5 witness: the claim at the concrete count 3. -/
theorem generate_ipv4_count_and_distinct_witness :
    (generate_ipv4 id id 3).length = 3 ∧
      ((generate_ipv4 id id 3).map SocketAddr.ipOf).Nodup :=
  generate_ipv4_count_and_distinct id id 3 (by decide)

/-- C6: the Ranker (`sort_by_key(|res| res.latency)`) returns a
permutation of its input in which the latency is non-decreasing across
every adjacent pair. -/
theorem rank_perm_and_sorted (scores : List TestResult) :
    (sortByLatency scores).Perm scores ∧
      (sortByLatency scores).Chain' fun a b => a.latency ≤ b.latency :=
  ⟨List.mergeSort_perm scores _, sortByLatency_chain scores⟩

/-- C7: the progress bar is ticked exactly once per attempt whatever the
attempt's outcome, so a run issues `candidates × attempts` ticks. -/
theorem schedulerTicks_eq
    (inputs : List (SocketAddr × (Nat → Except ProbeError TestResult)))
    (attempts : Nat) :
    schedulerTicks inputs attempts = inputs.length * attempts := by
  unfold schedulerTicks
  induction inputs with
  | nil => simp
  | cons p ps ih =>
    simp only [List.map_cons, List.sum_cons, List.length_cons,
      runAttempts_ticks] at ih ⊢
    rw [ih]
    ring

/-- C8: requesting the IPv6 address family fails at configuration time
with the explicit "not implemented" error (the `todo!()` panic of the
IPv6 arm), before any candidate generation or probing. -/
theorem mainRun_ipv6_fails_fast (pick portPick : Nat → Nat)
    (amount attempts : Nat)
    (probeOf : SocketAddr → Nat → Except ProbeError TestResult) :
    mainRun .ipv6 pick portPick amount attempts probeOf =
        .error ("not yet implemented") ∧
      modeAddrs .ipv6 pick portPick amount =
        .error ("not yet implemented") :=
  ⟨rfl, rfl⟩

/-- C9: `generate_ipv4(amount)` returns exactly `min amount 2048`
endpoints, and once `amount` reaches the 2048-address universe it
returns every IP of the universe (no error is signalled — the function
is total). -/
theorem generate_ipv4_min_universe (pick portPick : Nat → Nat)
    (amount : Nat) :
    (generate_ipv4 pick portPick amount).length = min amount 2048 ∧
      (2048 ≤ amount →
        (generate_ipv4 pick portPick amount).map SocketAddr.ipOf =
          all_ips) :=
  ⟨generate_ipv4_length pick portPick amount,
   fun h => generate_ipv4_exhausts pick portPick amount h⟩

/-- C9 witness: the claim at the concrete count 2049. -/
theorem generate_ipv4_min_universe_witness :
    (generate_ipv4 id id 2049).length = min 2049 2048 ∧
      (generate_ipv4 id id 2049).map SocketAddr.ipOf = all_ips :=
  ⟨(generate_ipv4_min_universe id id 2049).1,
   (generate_ipv4_min_universe id id 2049).2 (by decide)⟩

/-- C10: with zero attempts per endpoint, the attempt loop performs no
probes, every endpoint yields nothing, and the final result list is
empty — regardless of how the endpoints would have responded. -/
theorem schedulerRun_zero_attempts
    (inputs : List (SocketAddr × (Nat → Except ProbeError TestResult)))
    (addr : SocketAddr) (probe : Nat → Except ProbeError TestResult) :
    (runAttempts 0 probe).probes = 0 ∧
      perEndpoint addr 0 probe = none ∧
      schedulerRun inputs 0 = [] := by
  refine ⟨rfl, rfl, ?_⟩
  unfold schedulerRun
  have h : (inputs.filterMap fun p => perEndpoint p.1 0 p.2) = [] := by
    rw [List.filterMap_eq_nil_iff]
    intro p _
    rfl
  rw [h]
  exact List.mergeSort_nil

end WarpSpeedtest
